import Mathlib

/-!
Verification of the keymaster-sync client core: the dashboard filter engine
(`filterPasswords`), credential utilities (`generatePassword`,
`togglePasswordVisibility`) and the admin access check (`checkAdminStatus`),
shallowly embedded from `src/pages/Dashboard.tsx`,
`src/components/PasswordDialog.tsx` and the admin page.

JavaScript strings are ASCII here; lists of characters model generated
passwords. `Math.random()` is modelled as a stream of rationals in [0, 1).
JavaScript truthiness of a possibly-null string (`if (searchTerm)`,
`if (selectedCategory)`) is modelled explicitly: `null`/absent and the empty
string are falsy.
-/

/-- A password record, from the `Password` interface of `Dashboard.tsx`.
`username` and `url` are optional (the source guards them with `?.`), and
`category_id` is `string | null`. -/
structure Password where
  id : String
  title : String
  username : Option String
  encrypted_password : String
  url : Option String
  notes : String
  is_favorite : Bool
  category_id : Option String
  user_id : String
deriving DecidableEq, Repr

/-- JavaScript `hay.includes(needle)`: substring test. -/
def includes (hay needle : String) : Bool :=
  decide (needle.toList <:+: hay.toList)

/-- Truthiness of a `string | null` value: `null` and `""` are falsy. -/
def optTruthy : Option String → Bool
  | none => false
  | some s => s != ""

/-- The text predicate of `filterPasswords` (Dashboard.tsx lines 129-133):
`password.title.toLowerCase().includes(searchTerm.toLowerCase()) ||
 password.username?.toLowerCase().includes(searchTerm.toLowerCase()) ||
 password.url?.toLowerCase().includes(searchTerm.toLowerCase())`.
An optional chain on an absent field is `undefined`, hence falsy. -/
def matchesSearch (searchTerm : String) (p : Password) : Bool :=
  includes p.title.toLower searchTerm.toLower ||
  (match p.username with
   | some u => includes u.toLower searchTerm.toLower
   | none => false) ||
  (match p.url with
   | some u => includes u.toLower searchTerm.toLower
   | none => false)

/-- `filterPasswords` (Dashboard.tsx lines 125-141): start from the full
list; if `searchTerm` is truthy, keep the text matches; if `selectedCategory`
is truthy, keep records whose `category_id === selectedCategory`. -/
def filterPasswords (passwords : List Password) (searchTerm : String)
    (selectedCategory : Option String) : List Password :=
  let filtered := passwords
  let filtered := if searchTerm != "" then
      filtered.filter (fun p => matchesSearch searchTerm p)
    else filtered
  let filtered := if optTruthy selectedCategory then
      filtered.filter (fun p => p.category_id == selectedCategory)
    else filtered
  filtered

/-- The combined predicate the two sequential filters of `filterPasswords`
amount to: the text predicate is skipped when the query is empty, the
category predicate when the selector is absent or the empty string. -/
def passesBoth (searchTerm : String) (selectedCategory : Option String)
    (p : Password) : Bool :=
  (searchTerm == "" || matchesSearch searchTerm p) &&
  (!optTruthy selectedCategory || p.category_id == selectedCategory)

theorem filterPasswords_eq_filter (L : List Password) (q : String)
    (c : Option String) :
    filterPasswords L q c = L.filter (passesBoth q c) := by
  have hqq : (q == "") = !(q != "") := by cases h : q == "" <;> simp [bne, h]
  unfold filterPasswords passesBoth
  cases hq : (q != "") <;> cases hc : optTruthy c
  · simp [hqq, hq]
  · simp [hqq, hq, hc]
  · simp [hqq, hq, hc]
  · simp [hqq, hq, hc, List.filter_filter]
    exact List.filter_congr fun a _ => Bool.and_comm _ _

/-- Example records used to instantiate theorems with hypotheses, taken from
the spec's §8 scenarios. -/
def gmailRecord : Password :=
  ⟨"1", "Gmail", some "a@x.com", "pw1", none, "", false, none, "u1"⟩

def bankRecord : Password :=
  ⟨"2", "Bank", some "b@x.com", "pw2", none, "", false, none, "u1"⟩

def workRecord : Password :=
  ⟨"3", "Jira", none, "pw3", none, "", false, some "Work", "u1"⟩

def uncategorizedRecord : Password :=
  ⟨"4", "Router", none, "pw4", none, "", false, none, "u1"⟩

/-- C3: filtering with the empty query and no category selector returns the
input list itself unchanged; in particular the empty list maps to the empty
list. -/
theorem filter_empty_query_no_category (L : List Password) :
    filterPasswords L "" none = L := rfl

/-- C1: with a non-empty query and no category selector, a record is in the
output of `filterPasswords` iff it is in the input and the query is a
case-insensitive substring of its title, or of its username (if present), or
of its url (if present) — the predicate `matchesSearch`. -/
theorem filter_text_characterization (L : List Password) (q : String)
    (hq : q ≠ "") (r : Password) :
    r ∈ filterPasswords L q none ↔ r ∈ L ∧ matchesSearch q r = true := by
  have h1 : (q != "") = true := bne_iff_ne.mpr hq
  simp [filterPasswords, optTruthy, h1, List.mem_filter]

theorem filter_text_characterization_witness :
    ("gmail" : String) ≠ "" ∧
    (gmailRecord ∈ filterPasswords [gmailRecord, bankRecord] "gmail" none ↔
      gmailRecord ∈ [gmailRecord, bankRecord] ∧
        matchesSearch "gmail" gmailRecord = true) :=
  ⟨by decide,
    filter_text_characterization [gmailRecord, bankRecord] "gmail" (by decide)
      gmailRecord⟩

/-- C2 counterexample: the claim fails for the present-but-empty category
identifier `some ""`. JavaScript truthiness (`if (selectedCategory)`) skips
the category filter for the empty string, so a record whose category
reference is absent still appears in the output although a category
identifier is present. -/
theorem filter_category_empty_id_counterexample :
    uncategorizedRecord ∈ filterPasswords [uncategorizedRecord] "" (some "") ∧
    uncategorizedRecord.category_id ≠ some "" ∧
    (some "" : Option String) ≠ none := by decide

/-- C2 (amended to non-empty category identifiers): with the empty query and
a present non-empty category identifier `s`, a record is in the output of
`filterPasswords` iff it is in the input and its category reference is
exactly `some s`; in particular records with an absent category reference
never appear. -/
theorem filter_category_exact (L : List Password) (s : String) (hs : s ≠ "")
    (r : Password) :
    r ∈ filterPasswords L "" (some s) ↔ r ∈ L ∧ r.category_id = some s := by
  have h1 : optTruthy (some s) = true := bne_iff_ne.mpr hs
  simp [filterPasswords, h1, List.mem_filter]

theorem filter_category_exact_witness :
    ("Work" : String) ≠ "" ∧
    (workRecord ∈ filterPasswords [workRecord, uncategorizedRecord] ""
        (some "Work") ↔
      workRecord ∈ [workRecord, uncategorizedRecord] ∧
        workRecord.category_id = some "Work") :=
  ⟨by decide,
    filter_category_exact [workRecord, uncategorizedRecord] "Work" (by decide)
      workRecord⟩

/-- C4: `filterPasswords` is idempotent, its output is exactly the records of
the input satisfying both predicates in the input order (a single
`List.filter`, no re-sorting), and that output is a subsequence of the
input. -/
theorem filter_idempotent_order_preserving (L : List Password) (q : String)
    (c : Option String) :
    filterPasswords (filterPasswords L q c) q c = filterPasswords L q c ∧
    filterPasswords L q c = L.filter (passesBoth q c) ∧
    (filterPasswords L q c).Sublist L := by
  refine ⟨?_, filterPasswords_eq_filter L q c, ?_⟩
  · rw [filterPasswords_eq_filter, filterPasswords_eq_filter,
      List.filter_filter]
    exact List.filter_congr fun a _ => Bool.and_self _
  · rw [filterPasswords_eq_filter]
    exact List.filter_sublist L

/-- The dashboard view state surrounding the filter: the record list, the
query, the category selector, the visibility set, the dialog flags and the
loading flag (Dashboard.tsx lines 53-63). -/
structure DashboardState where
  passwords : List Password
  searchTerm : String
  selectedCategory : Option String
  visiblePasswords : Finset String
  isPasswordDialogOpen : Bool
  isCategoryDialogOpen : Bool
  loading : Bool

/-- The filtered list the dashboard renders: `filterPasswords` applied to the
list, query and selector held in the state. -/
def filteredPasswords (s : DashboardState) : List Password :=
  filterPasswords s.passwords s.searchTerm s.selectedCategory

/-- C8: the filtered list is a pure function of exactly the record list, the
query and the category selector: two states agreeing on those three produce
the same output whatever their visibility set, dialog flags or loading
flag. -/
theorem filtered_pure_in_three_inputs (s₁ s₂ : DashboardState)
    (hp : s₁.passwords = s₂.passwords) (hq : s₁.searchTerm = s₂.searchTerm)
    (hc : s₁.selectedCategory = s₂.selectedCategory) :
    filteredPasswords s₁ = filteredPasswords s₂ := by
  unfold filteredPasswords
  rw [hp, hq, hc]

theorem filtered_pure_in_three_inputs_witness :
    filteredPasswords ⟨[gmailRecord], "a", none, ∅, false, false, false⟩ =
      filteredPasswords ⟨[gmailRecord], "a", none, {"1"}, true, true, true⟩ :=
  filtered_pure_in_three_inputs _ _ rfl rfl rfl

/-- `togglePasswordVisibility` (Dashboard.tsx lines 143-151): copy the set,
delete the id if present, add it otherwise. The JavaScript `Set` is modelled
as a `Finset` of identifiers. -/
def togglePasswordVisibility (visiblePasswords : Finset String)
    (passwordId : String) : Finset String :=
  if passwordId ∈ visiblePasswords then visiblePasswords.erase passwordId
  else insert passwordId visiblePasswords

/-- C6: one toggle removes the id if present and inserts it otherwise, the
toggle is self-inverse, and membership of every other identifier is
unchanged. -/
theorem toggle_visibility_self_inverse (S : Finset String) (i : String) :
    togglePasswordVisibility (togglePasswordVisibility S i) i = S ∧
    (i ∈ togglePasswordVisibility S i ↔ i ∉ S) ∧
    (∀ j : String, j ≠ i → (j ∈ togglePasswordVisibility S i ↔ j ∈ S)) := by
  unfold togglePasswordVisibility
  by_cases h : i ∈ S
  · refine ⟨?_, ?_, ?_⟩
    · simp [h, Finset.not_mem_erase, Finset.insert_erase]
    · simp [h, Finset.not_mem_erase]
    · intro j hj
      simp [h, Finset.mem_erase, hj]
  · refine ⟨?_, ?_, ?_⟩
    · simp [h, Finset.mem_insert_self, Finset.erase_insert]
    · simp [h, Finset.mem_insert_self]
    · intro j hj
      simp [h, Finset.mem_insert, hj]

theorem toggle_visibility_self_inverse_witness :
    togglePasswordVisibility (togglePasswordVisibility {"a"} "a") "a" =
      ({"a"} : Finset String) ∧
    ("b" ∈ togglePasswordVisibility {"a"} "a" ↔ "b" ∈ ({"a"} : Finset String)) :=
  ⟨(toggle_visibility_self_inverse {"a"} "a").1,
    (toggle_visibility_self_inverse {"a"} "a").2.2 "b" (by decide)⟩

/-- The generator charset (PasswordDialog.tsx line 90). -/
def charset : String :=
  "abcdefghijklmnopqrstuvwxyzABCDEFGHIJKLMNOPQRSTUVWXYZ0123456789!@#$%^&*()_+-=[]\x7b\x7d|;:,.<>?"

/-- The charset as its character sequence. -/
def charsetL : List Char := charset.toList

/-- JavaScript `s.charAt(n)`: the one-character string at index `n`, or the
empty string when `n` is out of range. -/
def charAt (s : List Char) (n : Int) : List Char :=
  if h : 0 ≤ n ∧ n.toNat < s.length then [s.get ⟨n.toNat, h.2⟩] else []

/-- `Math.floor(r * len)` for a random draw `r`, modelling
`Math.floor(Math.random() * charset.length)` (PasswordDialog.tsx line 93)
with `Math.random()` a rational in [0, 1). -/
def randomIndex (r : ℚ) (len : Nat) : Int := ⌊r * (len : ℚ)⌋

/-- `generatePassword` (PasswordDialog.tsx lines 88-96): sixteen iterations,
each appending the charset character at a fresh random index. The random
source is a stream `rand` of draws, one per iteration. -/
def generatePassword (rand : Nat → ℚ) : List Char :=
  (List.range 16).foldl
    (fun pw i => pw ++ charAt charsetL (randomIndex (rand i) charsetL.length)) []

theorem foldl_append_eq_flatten {α β : Type} (f : α → List β) (l : List α)
    (acc : List β) :
    l.foldl (fun pw i => pw ++ f i) acc = acc ++ (l.map f).flatten := by
  induction l generalizing acc with
  | nil => simp
  | cons x xs ih => simp [ih, List.append_assoc]

theorem randomIndex_bounds (r : ℚ) (h0 : 0 ≤ r) (h1 : r < 1) (len : Nat)
    (hlen : 0 < len) :
    0 ≤ randomIndex r len ∧ randomIndex r len < len := by
  have hlq : (0 : ℚ) < (len : ℚ) := by exact_mod_cast hlen
  constructor
  · exact Int.floor_nonneg.mpr (mul_nonneg h0 (le_of_lt hlq))
  · have hr : r * (len : ℚ) < ((len : ℤ) : ℚ) := by
      push_cast
      calc r * (len : ℚ) < 1 * (len : ℚ) := by
            exact mul_lt_mul_of_pos_right h1 hlq
        _ = (len : ℚ) := one_mul _
    exact_mod_cast Int.floor_lt.mpr hr

theorem charAt_in_bounds (s : List Char) (n : Int) (h0 : 0 ≤ n)
    (h1 : n < s.length) :
    (charAt s n).length = 1 ∧ ∀ c ∈ charAt s n, c ∈ s := by
  have h2 : n.toNat < s.length := by omega
  rw [charAt, dif_pos ⟨h0, h2⟩]
  exact ⟨rfl, fun c hc => by
    rw [List.mem_singleton] at hc
    rw [hc]
    exact List.get_mem s n.toNat h2⟩

theorem randomIndex_eq_iff (r : ℚ) (k : Nat) (len : Nat) (hlen : 0 < len) :
    randomIndex r len = k ↔
      (k : ℚ) / (len : ℚ) ≤ r ∧ r < ((k : ℚ) + 1) / (len : ℚ) := by
  have hlq : (0 : ℚ) < (len : ℚ) := by exact_mod_cast hlen
  rw [randomIndex, Int.floor_eq_iff]
  constructor
  · rintro ⟨ha, hb⟩
    constructor
    · rw [div_le_iff₀ hlq]
      exact_mod_cast ha
    · rw [lt_div_iff₀ hlq]
      exact_mod_cast hb
  · rintro ⟨ha, hb⟩
    rw [div_le_iff₀ hlq] at ha
    rw [lt_div_iff₀ hlq] at hb
    exact ⟨by exact_mod_cast ha, by exact_mod_cast hb⟩

theorem charsetL_length : charsetL.length = 88 := by decide

theorem generatePassword_flatten (rand : Nat → ℚ) :
    generatePassword rand =
      ((List.range 16).map
        (fun i => charAt charsetL (randomIndex (rand i) charsetL.length))).flatten := by
  rw [generatePassword, foldl_append_eq_flatten]
  rfl

theorem generatePassword_length_mem (rand : Nat → ℚ)
    (h : ∀ i, 0 ≤ rand i ∧ rand i < 1) :
    (generatePassword rand).length = 16 ∧
    ∀ c ∈ generatePassword rand, c ∈ charsetL := by
  have hlen : 0 < charsetL.length := by rw [charsetL_length]; norm_num
  have hone : ∀ i : Nat,
      (charAt charsetL (randomIndex (rand i) charsetL.length)).length = 1 ∧
      ∀ c ∈ charAt charsetL (randomIndex (rand i) charsetL.length),
        c ∈ charsetL := by
    intro i
    obtain ⟨hb0, hb1⟩ :=
      randomIndex_bounds (rand i) (h i).1 (h i).2 charsetL.length hlen
    exact charAt_in_bounds charsetL _ hb0 hb1
  rw [generatePassword_flatten]
  constructor
  · have h2 : ∀ i ∈ List.range 16,
        (List.length ∘ fun i =>
          charAt charsetL (randomIndex (rand i) charsetL.length)) i =
          (fun _ => 1) i :=
      fun i _ => (hone i).1
    rw [List.length_flatten, List.map_map, List.map_congr_left h2]
    simp
  · intro c hc
    rw [List.mem_flatten] at hc
    obtain ⟨l, hl, hcl⟩ := hc
    rw [List.mem_map] at hl
    obtain ⟨i, _, rfl⟩ := hl
    exact (hone i).2 c hcl

/-- C5 counterexample: the claim's "92-symbol charset" miscounts the source
charset (PasswordDialog.tsx line 90), which has 88 symbols. -/
theorem charset_size_counterexample :
    charset.length = 88 ∧ charset.length ≠ 92 := by decide

/-- C5 (amended: the fixed charset has 88 symbols, not 92): with every draw
in [0, 1), the generated password has exactly 16 characters, every character
comes from the charset, character i is determined by draw i alone
(independence), and for every charset index k the draws selecting k form the
interval [k/88, (k+1)/88) — the same width 1/88 for each k (per-character
uniformity under a uniform draw). -/
theorem generate_16_from_charset (rand : Nat → ℚ)
    (h : ∀ i, 0 ≤ rand i ∧ rand i < 1) :
    (generatePassword rand).length = 16 ∧
    (∀ c ∈ generatePassword rand, c ∈ charsetL) ∧
    generatePassword rand =
      ((List.range 16).map
        (fun i => charAt charsetL (randomIndex (rand i) charsetL.length))).flatten ∧
    (∀ (r : ℚ) (k : Nat),
      randomIndex r charsetL.length = k ↔
        (k : ℚ) / (charsetL.length : ℚ) ≤ r ∧
          r < ((k : ℚ) + 1) / (charsetL.length : ℚ)) := by
  have hlen : 0 < charsetL.length := by rw [charsetL_length]; norm_num
  obtain ⟨h1, h2⟩ := generatePassword_length_mem rand h
  exact ⟨h1, h2, generatePassword_flatten rand,
    fun r k => randomIndex_eq_iff r k charsetL.length hlen⟩

theorem generate_16_from_charset_witness :
    (∀ i : Nat, 0 ≤ (fun _ : Nat => (0 : ℚ)) i ∧ (fun _ : Nat => (0 : ℚ)) i < 1) ∧
    (generatePassword (fun _ => 0)).length = 16 :=
  ⟨fun _ => ⟨le_refl 0, by norm_num⟩,
    (generate_16_from_charset (fun _ => 0)
      (fun _ => ⟨le_refl 0, by norm_num⟩)).1⟩

/-- C9: with every draw in [0, 1), each per-character index
`Math.floor(Math.random() * charset.length)` lies in [0, charset.length), so
`charAt` never returns the empty string — its out-of-range branch is
unreachable — and the 16-iteration loop yields exactly 16 characters. -/
theorem random_index_always_in_bounds (rand : Nat → ℚ)
    (h : ∀ i, 0 ≤ rand i ∧ rand i < 1) :
    (∀ i : Nat, 0 ≤ randomIndex (rand i) charsetL.length ∧
      randomIndex (rand i) charsetL.length < charsetL.length ∧
      (charAt charsetL (randomIndex (rand i) charsetL.length)).length = 1) ∧
    (generatePassword rand).length = 16 := by
  have hlen : 0 < charsetL.length := by rw [charsetL_length]; norm_num
  refine ⟨fun i => ?_, (generatePassword_length_mem rand h).1⟩
  obtain ⟨hb0, hb1⟩ :=
    randomIndex_bounds (rand i) (h i).1 (h i).2 charsetL.length hlen
  exact ⟨hb0, hb1, (charAt_in_bounds charsetL _ hb0 hb1).1⟩

theorem random_index_always_in_bounds_witness :
    (∀ i : Nat,
      0 ≤ (fun _ : Nat => (1 : ℚ) / 2) i ∧ (fun _ : Nat => (1 : ℚ) / 2) i < 1) ∧
    (generatePassword (fun _ => 1 / 2)).length = 16 :=
  ⟨fun _ => ⟨by norm_num, by norm_num⟩,
    (random_index_always_in_bounds (fun _ => 1 / 2)
      (fun _ => ⟨by norm_num, by norm_num⟩)).2⟩

/-- The failure condition for password generation. -/
inductive GenError where
  | invalidArgument
deriving DecidableEq, Repr

/-- Modelled from the spec: the source `generatePassword`
(PasswordDialog.tsx lines 88-96) fixes `length = 16` and has no length
parameter and no failure path; §7 of the spec requires a hardened
`generate(length)` that fails with an InvalidArgument condition when
`length <= 0`. The success branch runs the source's loop `length` times. -/
def generate (len : Int) (rand : Nat → ℚ) : Except GenError (List Char) :=
  if len ≤ 0 then Except.error GenError.invalidArgument
  else Except.ok ((List.range len.toNat).foldl
    (fun pw i => pw ++ charAt charsetL (randomIndex (rand i) charsetL.length)) [])

/-- C7: for every requested length ≤ 0, generation fails with
InvalidArgument rather than returning a string. -/
theorem generate_nonpositive_invalid (len : Int) (rand : Nat → ℚ)
    (h : len ≤ 0) :
    generate len rand = Except.error GenError.invalidArgument := by
  rw [generate, if_pos h]

theorem generate_nonpositive_invalid_witness :
    ((0 : Int) ≤ 0) ∧
    generate 0 (fun _ => 0) = Except.error GenError.invalidArgument :=
  ⟨le_refl 0, generate_nonpositive_invalid 0 (fun _ => 0) (le_refl 0)⟩

/-- The outcome of the admin access check: whether `setIsAdmin(true)` ran and
whether the page navigated away. -/
structure AdminOutcome where
  isAdmin : Bool
  redirected : Bool
deriving DecidableEq, Repr

/-- `checkAdminStatus` (admin page lines 54-94) as the pure decision on the
fetched account data: its role rows and its profile's super-admin flag.
`hasAdminRole` is
`roles?.some(r => ['admin', 'super_admin'].includes(r.role)) || profile?.is_super_admin`;
when it is falsy the page toasts, navigates to `/` and leaves `isAdmin`
false; otherwise `setIsAdmin(true)`. -/
def checkAdminStatus (roles : List String) (is_super_admin : Bool) :
    AdminOutcome :=
  let hasAdminRole :=
    roles.any (fun r => ["admin", "super_admin"].contains r) || is_super_admin
  if !hasAdminRole then { isAdmin := false, redirected := true }
  else { isAdmin := true, redirected := false }

theorem checkAdminStatus_denied (roles : List String) (flag : Bool)
    (hb : (roles.any (fun r => ["admin", "super_admin"].contains r) || flag) = false) :
    checkAdminStatus roles flag = { isAdmin := false, redirected := true } := by
  unfold checkAdminStatus
  rw [hb]
  rfl

theorem checkAdminStatus_granted (roles : List String) (flag : Bool)
    (hb : (roles.any (fun r => ["admin", "super_admin"].contains r) || flag) = true) :
    checkAdminStatus roles flag = { isAdmin := true, redirected := false } := by
  unfold checkAdminStatus
  rw [hb]
  rfl

/-- C10: access is granted iff the role list contains `admin` or
`super_admin` or the profile carries the super-admin flag; every account
failing that disjunction is denied and redirected with `isAdmin` false. -/
theorem admin_access_characterization (roles : List String) (flag : Bool) :
    ((checkAdminStatus roles flag).isAdmin = true ↔
      ("admin" ∈ roles ∨ "super_admin" ∈ roles ∨ flag = true)) ∧
    (¬("admin" ∈ roles ∨ "super_admin" ∈ roles ∨ flag = true) →
      (checkAdminStatus roles flag).isAdmin = false ∧
      (checkAdminStatus roles flag).redirected = true) := by
  have hiff :
      (roles.any (fun r => ["admin", "super_admin"].contains r) || flag) = true ↔
        ("admin" ∈ roles ∨ "super_admin" ∈ roles ∨ flag = true) := by
    simp [List.any_eq_true, List.contains]
    constructor
    · rintro (⟨r, hr, (rfl | rfl)⟩ | hf)
      · exact Or.inl hr
      · exact Or.inr (Or.inl hr)
      · exact Or.inr (Or.inr hf)
    · rintro (h | h | h)
      · exact Or.inl ⟨"admin", h, Or.inl rfl⟩
      · exact Or.inl ⟨"super_admin", h, Or.inr rfl⟩
      · exact Or.inr h
  constructor
  · rw [← hiff]
    cases hb : (roles.any (fun r => ["admin", "super_admin"].contains r) || flag)
    · rw [checkAdminStatus_denied roles flag hb]
    · rw [checkAdminStatus_granted roles flag hb]
  · intro hcon
    have hb : (roles.any (fun r => ["admin", "super_admin"].contains r) || flag) = false :=
      Bool.eq_false_iff.mpr (fun hx => hcon (hiff.mp hx))
    rw [checkAdminStatus_denied roles flag hb]
    exact ⟨rfl, rfl⟩

theorem admin_access_characterization_witness :
    (¬("admin" ∈ ["user"] ∨ "super_admin" ∈ ["user"] ∨ false = true)) ∧
    ((checkAdminStatus ["user"] false).isAdmin = false ∧
      (checkAdminStatus ["user"] false).redirected = true) :=
  ⟨by decide, (admin_access_characterization ["user"] false).2 (by decide)⟩
